import Mathlib

/-!
Shallow embedding of the rider-tracking backend (src/database.js and the
server file): a JSON-value model for the JavaScript values that flow through
the handlers, the JS `parseInt` coercion used by the store, the flat-file
store's operations, the HTTP and socket location handlers, and the presence
registry transition system.

Modelling conventions:
  * JavaScript `undefined` is `Option.none` at every field position; the
    other primitive values are `JVal`.
  * Timestamps are modelled by their parsed time value in milliseconds
    (`Int`): every timestamp the system stores is produced by
    `new Date().toISOString()` and round-trips through `new Date(s)`.
  * A `rider_id` of `none` models `NaN` (the result of `parseInt` on a
    value with no usable digits); JS strict equality on `NaN` is false,
    which `jsIntEq` reproduces.
  * `Array.prototype.sort` is stable (ES2019); `List.insertionSort` is a
    stable sort, and the theorems below depend only on sortedness and
    permutation.
-/

namespace RiderTracking

/-- JS primitive values as they appear in request bodies and the store. -/
inductive JVal where
  | num (q : ℚ)
  | str (s : String)
  | bool (b : Bool)
  | null
  | nan
deriving DecidableEq, Repr

/-- JS truthiness of an optional value (`none` = `undefined`). -/
def truthy : Option JVal → Bool
  | none => false
  | some (.num q) => decide (q ≠ 0)
  | some (.str s) => decide (s ≠ "")
  | some (.bool b) => b
  | some .null => false
  | some .nan => false

/-- The ASCII whitespace characters `parseInt` skips. -/
def isJsSpace (c : Char) : Bool :=
  c == ' ' || c == '\t' || c == '\n' || c == '\r' || c == '\x0b' || c == '\x0c'

def isDecDigit (c : Char) : Bool := decide (48 ≤ c.toNat ∧ c.toNat ≤ 57)

def decDigitVal (c : Char) : Nat := c.toNat - 48

def isHexDigitJs (c : Char) : Bool :=
  isDecDigit c || ('a' ≤ c && c ≤ 'f') || ('A' ≤ c && c ≤ 'F')

def hexDigitVal (c : Char) : Nat :=
  if isDecDigit c then decDigitVal c
  else if 'a' ≤ c && c ≤ 'f' then c.toNat - 'a'.toNat + 10
  else c.toNat - 'A'.toNat + 10

/-- Value of a digit string under the given base. -/
def digitsVal (base : Nat) (dval : Char → Nat) (cs : List Char) : Nat :=
  cs.foldl (fun acc c => acc * base + dval c) 0

/-- Longest leading run of digits, `none` when there is no digit (NaN). -/
def parseDigits (base : Nat) (isD : Char → Bool) (dval : Char → Nat)
    (cs : List Char) : Option Nat :=
  let ds := cs.takeWhile isD
  if ds.isEmpty then none else some (digitsVal base dval ds)

/-- `parseInt` after sign handling: a `0x`/`0X` start switches to base 16. -/
def parseUnsignedJs (cs : List Char) : Option Nat :=
  match cs with
  | c :: x :: rest =>
    if c == '0' && (x == 'x' || x == 'X') then
      parseDigits 16 isHexDigitJs hexDigitVal rest
    else parseDigits 10 isDecDigit decDigitVal (c :: x :: rest)
  | _ => parseDigits 10 isDecDigit decDigitVal cs

/-- Sign handling of `parseInt`, after whitespace has been skipped. -/
def jsParseIntCore : List Char → Option Int
  | [] => none
  | c :: cs =>
    if c == '-' then (parseUnsignedJs cs).map (fun n => -(n : Int))
    else if c == '+' then (parseUnsignedJs cs).map (fun n => (n : Int))
    else (parseUnsignedJs (c :: cs)).map (fun n => (n : Int))

/-- JS `parseInt` on a string, radix argument absent: skip whitespace, take
an optional sign, parse hex after `0x`, else the longest decimal-digit run;
`none` models the `NaN` result. -/
def jsParseInt (s : String) : Option Int :=
  jsParseIntCore (s.toList.dropWhile isJsSpace)

/-- Truncation toward zero, as JS number-to-string then `parseInt` behaves
on plainly formatted decimal numbers. -/
def jsTrunc (q : ℚ) : Int :=
  if 0 ≤ q.num then ((q.num.toNat / q.den : Nat) : Int)
  else -((((-q.num).toNat / q.den : Nat) : Int))

/-- JS `parseInt` on an arbitrary optional value: numbers go through their
decimal rendering (truncation for plainly formatted numbers), strings are
parsed, everything else renders to a string with no leading digits (NaN). -/
def parseIntVal : Option JVal → Option Int
  | some (.num q) => some (jsTrunc q)
  | some (.str s) => jsParseInt s
  | some (.bool _) => none
  | some .null => none
  | some .nan => none
  | none => none

/-- JS strict equality `===` between a number-or-NaN on each side:
`NaN === x` is always false. -/
def jsIntEq : Option Int → Option Int → Bool
  | some a, some b => a == b
  | _, _ => false

/-- A row of `db.riders`. -/
structure Rider where
  id : Int
  name : String
  phone : String
  email : String
  status : String
  created_at : Int
  updated_at : Int
deriving DecidableEq, Repr

/-- A row of `db.locations`; `latitude` etc. keep the raw value that was
passed to `insertLocation` (`none` = `undefined`). -/
structure Location where
  id : Int
  rider_id : Option Int
  latitude : Option JVal
  longitude : Option JVal
  accuracy : Option JVal
  speed : Option JVal
  heading : Option JVal
  timestamp : Int
deriving DecidableEq, Repr

/-- The persisted document: two top-level sequences. -/
structure DB where
  riders : List Rider
  locations : List Location
deriving DecidableEq, Repr

/-- `statements.getRiderById`: first rider whose numeric id strictly equals
`parseInt(id)`. -/
def getRiderById (db : DB) (id : Option JVal) : Option Rider :=
  db.riders.find? (fun r => jsIntEq (some r.id) (parseIntVal id))

/-- `statements.getRiderByPhone`: linear scan, first match. -/
def getRiderByPhone (db : DB) (phone : String) : Option Rider :=
  db.riders.find? (fun r => r.phone == phone)

/-- In-place status update of the first rider matching the parsed id, as the
`find`-then-mutate in `statements.updateRiderStatus`. -/
def setStatusFirst (pid : Option Int) (st : String) (now : Int) :
    List Rider → List Rider
  | [] => []
  | r :: rs =>
    if jsIntEq (some r.id) pid then { r with status := st, updated_at := now } :: rs
    else r :: setStatusFirst pid st now rs

/-- `statements.updateRiderStatus`: silently a no-op when the id is unknown;
the boolean records whether `saveDatabase()` ran. -/
def updateRiderStatus (st : String) (id : Option JVal) (now : Int) (db : DB) :
    DB × Bool :=
  if (db.riders.find? (fun r => jsIntEq (some r.id) (parseIntVal id))).isSome then
    ({ db with riders := setStatusFirst (parseIntVal id) st now db.riders }, true)
  else (db, false)

/-- The id `insertLocation` assigns: `Math.max(...ids) + 1`, or `1` on an
empty table. -/
def nextLocationId : List Location → Int
  | [] => 1
  | l :: ls => (ls.foldl (fun m x => max m x.id) l.id) + 1

/-- `statements.insertLocation`: append the new row and return the assigned
id (`lastInsertRowid`); persists synchronously, no validation. -/
def insertLocation (riderId lat lon acc speed heading : Option JVal)
    (timestamp : Int) (db : DB) : DB × Int :=
  let id := nextLocationId db.locations
  ({ db with
      locations := db.locations ++
        [{ id := id, rider_id := parseIntVal riderId, latitude := lat,
           longitude := lon, accuracy := acc, speed := speed,
           heading := heading, timestamp := timestamp }] }, id)

/-- Ascending-timestamp comparison used by `getLocationHistory`'s sort. -/
def tsLe (a b : Location) : Prop := a.timestamp ≤ b.timestamp

/-- Descending-timestamp comparison used by the latest-location sorts. -/
def tsGe (a b : Location) : Prop := b.timestamp ≤ a.timestamp

instance : DecidableRel tsLe := fun a b => Int.decLe a.timestamp b.timestamp

instance : DecidableRel tsGe := fun a b => Int.decLe b.timestamp a.timestamp

instance : IsTotal Location tsLe := ⟨fun a b => Int.le_total a.timestamp b.timestamp⟩

instance : IsTotal Location tsGe := ⟨fun a b => Int.le_total b.timestamp a.timestamp⟩

instance : IsTrans Location tsLe := ⟨fun _ _ _ h h2 => le_trans h h2⟩

instance : IsTrans Location tsGe := ⟨fun _ _ _ h h2 => le_trans h2 h⟩

/-- `statements.getLocationHistory`: window bounds arrive in epoch seconds
and are scaled to milliseconds (`new Date(startTime * 1000)`); both bounds
inclusive; result sorted ascending by timestamp. -/
def getLocationHistory (riderId : Option JVal) (startTime endTime : Int)
    (db : DB) : List Location :=
  List.insertionSort tsLe
    (db.locations.filter (fun l =>
      jsIntEq l.rider_id (parseIntVal riderId)
      && decide (startTime * 1000 ≤ l.timestamp)
      && decide (l.timestamp ≤ endTime * 1000)))

/-- One element of `getAllLatestLocations`'s result: the spread of the
latest sample plus the rider's name, phone and status. -/
structure EnrichedLocation where
  loc : Location
  name : String
  phone : String
  status : String
deriving DecidableEq, Repr

/-- `statements.getAllLatestLocations`: for each rider with status
`active`, sort that rider's samples descending by timestamp and take the
first, skipping riders with no samples. -/
def getAllLatestLocations (db : DB) : List EnrichedLocation :=
  (db.riders.filter (fun r => r.status == "active")).filterMap (fun r =>
    (List.insertionSort tsGe
        (db.locations.filter (fun l => jsIntEq l.rider_id (some r.id)))).head?.map
      (fun l => { loc := l, name := r.name, phone := r.phone, status := r.status }))

/-- The 30-day horizon of `deleteOldLocations`, in milliseconds. -/
def pruneCutoff (now : Int) : Int := now - 30 * 86400000

/-- `statements.deleteOldLocations`: keep the samples with timestamp at or
after the cutoff; the count of removed rows is returned and the store is
rewritten only when that count is positive. -/
def deleteOldLocations (now : Int) (db : DB) : DB × Nat × Bool :=
  let kept := db.locations.filter (fun l => decide (pruneCutoff now ≤ l.timestamp))
  let deleted := db.locations.length - kept.length
  ({ db with locations := kept }, deleted, decide (0 < deleted))

/-- The fields destructured from a location-update request body or socket
payload (`none` = field absent / `undefined`). -/
structure LocBody where
  riderId : Option JVal
  latitude : Option JVal
  longitude : Option JVal
  accuracy : Option JVal
  speed : Option JVal
  heading : Option JVal
deriving DecidableEq, Repr

/-- JS `v || null`: `null` replaces any falsy value. -/
def jsOrNull (v : Option JVal) : Option JVal :=
  if truthy v then v else some .null

/-- An outbound `location-update` broadcast. `riderName = none` means the
field is absent from the emitted object or holds `undefined` (the two are
indistinguishable after serialization). -/
structure LocationUpdateEvent where
  riderId : Option JVal
  riderName : Option String
  latitude : Option JVal
  longitude : Option JVal
  accuracy : Option JVal
  speed : Option JVal
  heading : Option JVal
  timestamp : Int
deriving DecidableEq, Repr

/-- Observable outcome of one `POST /api/locations` request: HTTP status,
the id field of the response body, the store afterwards, and the broadcasts
emitted while handling the request. -/
structure PostResult where
  status : Nat
  respId : Option Int
  db : DB
  broadcasts : List LocationUpdateEvent
deriving DecidableEq, Repr

/-- The `POST /api/locations` handler: reject with 400 when any of
`riderId`, `latitude`, `longitude` is falsy; otherwise insert with a
server-assigned timestamp, emit one broadcast (without a rider-name
lookup), and answer with the assigned id. -/
def postLocations (db : DB) (now : Int) (b : LocBody) : PostResult :=
  if !(truthy b.riderId && truthy b.latitude && truthy b.longitude) then
    { status := 400, respId := none, db := db, broadcasts := [] }
  else
    let ins := insertLocation b.riderId b.latitude b.longitude
      (jsOrNull b.accuracy) (jsOrNull b.speed) (jsOrNull b.heading) now db
    { status := 200, respId := some ins.2, db := ins.1,
      broadcasts := [{ riderId := b.riderId, riderName := none,
                       latitude := b.latitude, longitude := b.longitude,
                       accuracy := b.accuracy, speed := b.speed,
                       heading := b.heading, timestamp := now }] }

/-- The socket `location-update` handler: no validation; insert with a
server-assigned timestamp, look the rider up for enrichment, emit one
broadcast carrying `riderName` (`rider?.name`). -/
def socketLocationUpdate (db : DB) (now : Int) (d : LocBody) :
    DB × List LocationUpdateEvent :=
  let ins := insertLocation d.riderId d.latitude d.longitude
    (jsOrNull d.accuracy) (jsOrNull d.speed) (jsOrNull d.heading) now db
  let rider := getRiderById ins.1 d.riderId
  (ins.1, [{ riderId := d.riderId, riderName := rider.map Rider.name,
             latitude := d.latitude, longitude := d.longitude,
             accuracy := d.accuracy, speed := d.speed,
             heading := d.heading, timestamp := now }])

/-- One value of the `activeRiders` map. -/
structure PresenceEntry where
  socketId : Nat
  name : String
  connectedAt : Int
deriving DecidableEq, Repr

/-- The `activeRiders` map: insertion-ordered key-value pairs, as a JS
`Map` iterates. Rider ids are modelled with their consistent numeric
representation. -/
abbrev Presence := List (Int × PresenceEntry)

/-- `Map.set`: overwrite in place when the key exists, else append. -/
def presenceSet (k : Int) (v : PresenceEntry) (m : Presence) : Presence :=
  if m.any (fun p => p.1 == k) then
    m.map (fun p => if p.1 == k then (k, v) else p)
  else m ++ [(k, v)]

/-- `Map.delete`. -/
def presenceDelete (k : Int) (m : Presence) : Presence :=
  m.filter (fun p => !(p.1 == k))

/-- An outbound `rider-status` broadcast. -/
structure RiderStatusEvent where
  riderId : Int
  riderName : String
  status : String
  timestamp : Int
deriving DecidableEq, Repr

/-- The server state the presence lifecycle touches: the store plus the
in-memory `activeRiders` map. -/
structure ServerState where
  db : DB
  presence : Presence
deriving DecidableEq, Repr

/-- The events that mutate the presence registry: `rider-connect`,
`rider-disconnect`, and transport-level `disconnect` (abrupt loss). -/
inductive Ev where
  | riderConnect (riderId : Int) (riderName : String) (socketId : Nat) (now : Int)
  | riderDisconnect (riderId : Int) (now : Int)
  | abruptDisconnect (socketId : Nat) (now : Int)

/-- One handler run, returning the new state and the `rider-status`
broadcasts it emits.  `rider-connect` registers presence then sets status
active; `rider-disconnect` only acts when the id is registered;
transport `disconnect` scans for the first entry with the closed socket's
id and stops after it. -/
def stepEv (s : ServerState) : Ev → ServerState × List RiderStatusEvent
  | .riderConnect rid name sock now =>
    let pres := presenceSet rid { socketId := sock, name := name, connectedAt := now } s.presence
    let db2 := (updateRiderStatus "active" (some (.num (rid : ℚ))) now s.db).1
    ({ db := db2, presence := pres },
     [{ riderId := rid, riderName := name, status := "active", timestamp := now }])
  | .riderDisconnect rid now =>
    match s.presence.find? (fun p => p.1 == rid) with
    | some p =>
      let pres := presenceDelete rid s.presence
      let db2 := (updateRiderStatus "inactive" (some (.num (rid : ℚ))) now s.db).1
      ({ db := db2, presence := pres },
       [{ riderId := rid, riderName := p.2.name, status := "inactive", timestamp := now }])
    | none => (s, [])
  | .abruptDisconnect sock now =>
    match s.presence.find? (fun p => p.2.socketId == sock) with
    | some p =>
      let pres := presenceDelete p.1 s.presence
      let db2 := (updateRiderStatus "inactive" (some (.num (p.1 : ℚ))) now s.db).1
      ({ db := db2, presence := pres },
       [{ riderId := p.1, riderName := p.2.name, status := "inactive", timestamp := now }])
    | none => (s, [])

/-- The riders seeded when no database file exists. -/
def seedRiders (t0 : Int) : List Rider :=
  [{ id := 1, name := "John Doe", phone := "9876543210",
     email := "john@example.com", status := "active",
     created_at := t0, updated_at := t0 },
   { id := 2, name := "Jagdish Suthar", phone := "7023204168",
     email := "jks@gmail.com", status := "active",
     created_at := t0, updated_at := t0 },
   { id := 3, name := "Mike Johnson", phone := "9876543212",
     email := "mike@example.com", status := "inactive",
     created_at := t0, updated_at := t0 }]

/-- Process start on a fresh install: seeded store, empty registry. -/
def initialState (t0 : Int) : ServerState :=
  { db := { riders := seedRiders t0, locations := [] }, presence := [] }

/-- States reachable from the fresh-install state by any sequence of
connect / disconnect / abrupt-loss events. -/
inductive Reachable (t0 : Int) : ServerState → Prop where
  | init : Reachable t0 (initialState t0)
  | step (s : ServerState) (e : Ev) : Reachable t0 s → Reachable t0 (stepEv s e).1

/-- First rider in the list with the given numeric id (what `getRiderById`
resolves an id to once parsed). -/
def findRider (riders : List Rider) (rid : Int) : Option Rider :=
  riders.find? (fun r => r.id == rid)

/-- Claim-side predicate (C7, stated from the spec's words): an entry in the
presence registry for a rider implies that rider's persisted status is
`active`, and absence of an entry implies status `inactive`. -/
def presenceStatusClaim (s : ServerState) : Prop :=
  ∀ r ∈ s.db.riders,
    (s.presence.any (fun p => p.1 == r.id) = true →
      (findRider s.db.riders r.id).map Rider.status = some "active") ∧
    (s.presence.any (fun p => p.1 == r.id) = false →
      (findRider s.db.riders r.id).map Rider.status = some "inactive")

instance (s : ServerState) : Decidable (presenceStatusClaim s) :=
  List.decidableBAll _ _

/-- Claim-side parsing (C10, stated from the claim's words): the value of
the longest leading decimal-digit prefix of the string, `none` when the
string has no leading digit. -/
def decimalPrefixVal (s : String) : Option Int :=
  let ds := s.toList.takeWhile isDecDigit
  if ds.isEmpty then none else some ((digitsVal 10 decDigitVal ds : Nat) : Int)

/-! ## Helper lemmas -/

lemma foldl_max_ge_init (ls : List Location) (a : Int) :
    a ≤ ls.foldl (fun m x => max m x.id) a := by
  induction ls generalizing a with
  | nil => exact le_refl a
  | cons x ls ih => exact le_trans (le_max_left a x.id) (ih (max a x.id))

lemma foldl_max_ge_mem (ls : List Location) (a : Int) (x : Location)
    (hx : x ∈ ls) : x.id ≤ ls.foldl (fun m x => max m x.id) a := by
  induction ls generalizing a with
  | nil => cases hx
  | cons y ls ih =>
    rcases List.mem_cons.mp hx with rfl | hmem
    · exact le_trans (le_max_right a x.id) (foldl_max_ge_init ls (max a x.id))
    · exact ih (max a y.id) hmem

lemma nextLocationId_gt (locs : List Location) (l : Location) (hl : l ∈ locs) :
    l.id < nextLocationId locs := by
  cases locs with
  | nil => cases hl
  | cons h t =>
    have : l.id ≤ t.foldl (fun m x => max m x.id) h.id := by
      rcases List.mem_cons.mp hl with rfl | hmem
      · exact foldl_max_ge_init t l.id
      · exact foldl_max_ge_mem t h.id l hmem
    show l.id < (t.foldl (fun m x => max m x.id) h.id) + 1
    exact Int.lt_add_one_iff.mpr this

lemma jsIntEq_some_right {o : Option Int} {b : Int} :
    jsIntEq o (some b) = true ↔ o = some b := by
  cases o with
  | none => simp [jsIntEq]
  | some a => simp [jsIntEq]

lemma sortDesc_nonempty {l : List Location} (h : l ≠ []) :
    ∃ x, (List.insertionSort tsGe l).head? = some x := by
  cases hs : List.insertionSort tsGe l with
  | nil =>
    exfalso
    have hp := List.perm_insertionSort tsGe l
    rw [hs] at hp
    exact h hp.nil_eq.symm
  | cons a t => exact ⟨a, rfl⟩

lemma sortDesc_head_max {l : List Location} {x : Location}
    (h : (List.insertionSort tsGe l).head? = some x) :
    x ∈ l ∧ ∀ y ∈ l, y.timestamp ≤ x.timestamp := by
  have hperm := List.perm_insertionSort tsGe l
  have hsort := List.sorted_insertionSort tsGe l
  cases hs : List.insertionSort tsGe l with
  | nil => rw [hs] at h; cases h
  | cons a t =>
    rw [hs] at h hperm hsort
    injection h with hax
    subst hax
    refine ⟨hperm.subset (List.mem_cons_self _ _), fun y hy => ?_⟩
    rcases List.mem_cons.mp (hperm.symm.subset hy) with rfl | hyt
    · exact le_refl _
    · exact List.rel_of_pairwise_cons hsort hyt

lemma length_filter_split {α : Type} (p : α → Bool) (l : List α) :
    (l.filter p).length + (l.filter (fun a => !(p a))).length = l.length := by
  induction l with
  | nil => rfl
  | cons x l ih =>
    by_cases hp : p x
    · simp [List.filter_cons, hp, Nat.succ_add, ih]
    · simp only [List.filter_cons, hp, Bool.false_eq_true, if_false,
        Bool.not_eq_true', if_true, List.length_cons]
      omega

lemma parseIntVal_int (rid : Int) :
    parseIntVal (some (.num (rid : ℚ))) = some rid := by
  have h1 : parseIntVal (some (.num (rid : ℚ))) = some (jsTrunc (rid : ℚ)) := rfl
  rw [h1]
  unfold jsTrunc
  rw [Rat.num_intCast, Rat.den_intCast]
  by_cases h : 0 ≤ rid
  · rw [if_pos h]
    simp [Int.toNat_of_nonneg h]
  · rw [if_neg h]
    simp only [Nat.div_one, Option.some.injEq]
    omega

lemma setStatusFirst_cons_pos {r : Rider} {rid : Int} (rs : List Rider)
    (st : String) (now : Int) (h : r.id = rid) :
    setStatusFirst (some rid) st now (r :: rs) =
      { r with status := st, updated_at := now } :: rs := by
  simp [setStatusFirst, jsIntEq, h]

lemma setStatusFirst_cons_neg {r : Rider} {rid : Int} (rs : List Rider)
    (st : String) (now : Int) (h : ¬ r.id = rid) :
    setStatusFirst (some rid) st now (r :: rs) =
      r :: setStatusFirst (some rid) st now rs := by
  simp [setStatusFirst, jsIntEq, h]

lemma findRider_cons (r : Rider) (rs : List Rider) (rid : Int) :
    findRider (r :: rs) rid = if r.id = rid then some r else findRider rs rid := by
  by_cases h : r.id = rid
  · rw [if_pos h]
    exact List.find?_cons_of_pos rs (by simpa using h)
  · rw [if_neg h]
    exact List.find?_cons_of_neg rs (by simpa using h)

lemma findRider_setStatusFirst_self (riders : List Rider) (rid : Int)
    (st : String) (now : Int) :
    findRider (setStatusFirst (some rid) st now riders) rid =
      (findRider riders rid).map (fun r => { r with status := st, updated_at := now }) := by
  induction riders with
  | nil => rfl
  | cons r rs ih =>
    by_cases h : r.id = rid
    · rw [setStatusFirst_cons_pos rs st now h, findRider_cons, findRider_cons,
        if_pos h, if_pos (show Rider.id { r with status := st, updated_at := now } = rid from h)]
      rfl
    · rw [setStatusFirst_cons_neg rs st now h, findRider_cons, findRider_cons,
        if_neg h, if_neg h]
      exact ih

lemma findRider_setStatusFirst_other (riders : List Rider) (rid rid' : Int)
    (st : String) (now : Int) (hne : rid' ≠ rid) :
    findRider (setStatusFirst (some rid) st now riders) rid' =
      findRider riders rid' := by
  induction riders with
  | nil => rfl
  | cons r rs ih =>
    by_cases h : r.id = rid
    · have h2 : ¬ r.id = rid' := by rw [h]; exact fun hx => hne hx.symm
      rw [setStatusFirst_cons_pos rs st now h, findRider_cons, findRider_cons,
        if_neg h2,
        if_neg (show ¬ Rider.id { r with status := st, updated_at := now } = rid' from h2)]
    · rw [setStatusFirst_cons_neg rs st now h, findRider_cons, findRider_cons]
      by_cases h2 : r.id = rid'
      · rw [if_pos h2, if_pos h2]
      · rw [if_neg h2, if_neg h2]
        exact ih

lemma updateRiderStatus_int_riders (st : String) (rid : Int) (now : Int) (db : DB) :
    ((updateRiderStatus st (some (.num (rid : ℚ))) now db).1).riders =
      setStatusFirst (some rid) st now db.riders ∨
    (((updateRiderStatus st (some (.num (rid : ℚ))) now db).1).riders = db.riders ∧
      findRider db.riders rid = none) := by
  unfold updateRiderStatus
  rw [parseIntVal_int]
  by_cases h : (db.riders.find? (fun r => jsIntEq (some r.id) (some rid))).isSome
  · left; rw [if_pos h]
  · right
    rw [if_neg h]
    refine ⟨rfl, ?_⟩
    exact Option.not_isSome_iff_eq_none.mp h

lemma findRider_update_self (st : String) (rid : Int) (now : Int) (db : DB)
    (r : Rider)
    (h : findRider ((updateRiderStatus st (some (.num (rid : ℚ))) now db).1).riders rid = some r) :
    r.status = st := by
  rcases updateRiderStatus_int_riders st rid now db with hcase | ⟨hcase, hnone⟩
  · rw [hcase, findRider_setStatusFirst_self] at h
    rcases Option.map_eq_some'.mp h with ⟨r0, _, hr0⟩
    rw [← hr0]
  · rw [hcase, hnone] at h
    cases h

lemma findRider_update_other (st : String) (rid rid' : Int) (now : Int) (db : DB)
    (hne : rid' ≠ rid) :
    findRider ((updateRiderStatus st (some (.num (rid : ℚ))) now db).1).riders rid' =
      findRider db.riders rid' := by
  rcases updateRiderStatus_int_riders st rid now db with hcase | ⟨hcase, _⟩
  · rw [hcase, findRider_setStatusFirst_other _ _ _ _ _ hne]
  · rw [hcase]

lemma mem_presenceSet {k : Int} {v : PresenceEntry} {m : Presence}
    {rid : Int} {e : PresenceEntry} (h : (rid, e) ∈ presenceSet k v m) :
    rid = k ∨ (rid, e) ∈ m := by
  unfold presenceSet at h
  by_cases hany : m.any (fun p => p.1 == k)
  · rw [if_pos hany] at h
    rcases List.mem_map.mp h with ⟨p, hp, hpe⟩
    by_cases hk : p.1 = k
    · rw [if_pos (by simpa using hk)] at hpe
      left
      have : rid = k := congrArg Prod.fst hpe.symm
      exact this
    · rw [if_neg (by simpa using hk)] at hpe
      right; rwa [hpe] at hp
  · rw [if_neg hany] at h
    rcases List.mem_append.mp h with hm | hone
    · right; exact hm
    · left
      have := List.mem_singleton.mp hone
      exact congrArg Prod.fst this

lemma mem_presenceDelete {k : Int} {m : Presence} {rid : Int}
    {e : PresenceEntry} (h : (rid, e) ∈ presenceDelete k m) :
    (rid, e) ∈ m ∧ rid ≠ k := by
  unfold presenceDelete at h
  have := List.mem_filter.mp h
  refine ⟨this.1, ?_⟩
  have hb := this.2
  simp only [Bool.not_eq_true'] at hb
  simpa using hb

lemma find?_unique_id (riders : List Rider)
    (hp : riders.Pairwise (fun a b => a.id ≠ b.id)) (r : Rider)
    (hm : r ∈ riders) (n : Int) (hn : r.id = n) :
    riders.find? (fun x => x.id == n) = some r := by
  induction riders with
  | nil => cases hm
  | cons y ys ih =>
    rcases List.pairwise_cons.mp hp with ⟨hy, hp2⟩
    rcases List.mem_cons.mp hm with rfl | hmem
    · exact List.find?_cons_of_pos ys (by simpa using hn)
    · have hne : ¬ y.id = n := fun hyn => hy r hmem (hyn.trans hn.symm)
      rw [List.find?_cons_of_neg ys (by simpa using hne)]
      exact ih hp2 hmem

lemma isJsSpace_toNat {c : Char} (h : isJsSpace c = true) : c.toNat < 48 := by
  unfold isJsSpace at h
  simp only [Bool.or_eq_true, beq_iff_eq] at h
  rcases h with ((((h | h) | h) | h) | h) | h <;> subst h <;> decide

lemma digit_not_space {c : Char} (h : isDecDigit c = true) : isJsSpace c = false := by
  have h2 : 48 ≤ c.toNat ∧ c.toNat ≤ 57 := of_decide_eq_true h
  cases hs : isJsSpace c
  · rfl
  · exact absurd (isJsSpace_toNat hs) (by omega)

lemma digit_ne_char {c : Char} (h : isDecDigit c = true) {d : Char}
    (hd : d.toNat < 48) : (c == d) = false := by
  have h2 : 48 ≤ c.toNat ∧ c.toNat ≤ 57 := of_decide_eq_true h
  cases hc : c == d
  · rfl
  · have : c = d := by simpa using hc
    subst this
    exact absurd h2.1 (by omega)

lemma dropWhile_digit_start {c : Char} (cs : List Char)
    (h : isDecDigit c = true) :
    (c :: cs).dropWhile isJsSpace = c :: cs := by
  simp [List.dropWhile_cons, digit_not_space h]

lemma parseDigits_digit_start {c : Char} (cs : List Char)
    (hc : isDecDigit c = true) :
    parseDigits 10 isDecDigit decDigitVal (c :: cs) =
      some (digitsVal 10 decDigitVal ((c :: cs).takeWhile isDecDigit)) := by
  unfold parseDigits
  rw [List.takeWhile_cons_of_pos hc]
  simp [List.takeWhile_cons_of_pos hc]

lemma parseUnsignedJs_digit_start {c : Char} (cs : List Char)
    (hc : isDecDigit c = true)
    (hhex : ∀ x rest, c :: cs = '0' :: x :: rest → x ≠ 'x' ∧ x ≠ 'X') :
    parseUnsignedJs (c :: cs) =
      some (digitsVal 10 decDigitVal ((c :: cs).takeWhile isDecDigit)) := by
  cases cs with
  | nil =>
    show parseDigits 10 isDecDigit decDigitVal [c] = _
    exact parseDigits_digit_start [] hc
  | cons x rest =>
    have hguard : (c == '0' && (x == 'x' || x == 'X')) = false := by
      by_cases h0 : c = '0'
      · rcases hhex x rest (by rw [h0]) with ⟨hx, hX⟩
        simp [hx, hX]
      · simp [h0]
    show (if c == '0' && (x == 'x' || x == 'X') then _ else
        parseDigits 10 isDecDigit decDigitVal (c :: x :: rest)) = _
    rw [hguard]
    simp only [Bool.false_eq_true, if_false]
    exact parseDigits_digit_start (x :: rest) hc

lemma jsParseInt_digit_start {s : String} {c : Char} {cs : List Char}
    (hs : s.toList = c :: cs) (hc : isDecDigit c = true)
    (hhex : ∀ x rest, s.toList = '0' :: x :: rest → x ≠ 'x' ∧ x ≠ 'X') :
    jsParseInt s = decimalPrefixVal s := by
  unfold jsParseInt
  rw [hs, dropWhile_digit_start cs hc]
  have e1 : (c == '-') = false := digit_ne_char hc (by decide)
  have e2 : (c == '+') = false := digit_ne_char hc (by decide)
  show (if c == '-' then _ else if c == '+' then _ else
      (parseUnsignedJs (c :: cs)).map (fun n => (n : Int))) = _
  rw [e1, e2]
  simp only [Bool.false_eq_true, if_false]
  rw [parseUnsignedJs_digit_start cs hc (by rw [← hs]; exact hhex)]
  unfold decimalPrefixVal
  rw [hs, List.takeWhile_cons_of_pos hc]
  simp [List.takeWhile_cons_of_pos hc]

lemma filter_self_eq {α : Type} (p : α → Bool) (l : List α) :
    (l.filter p).filter p = l.filter p := by
  induction l with
  | nil => rfl
  | cons x l ih =>
    by_cases h : p x
    · simp [List.filter_cons, h, ih]
    · simp [List.filter_cons, h, ih]

/-! ## Concrete fixtures used by witnesses and counterexamples -/

/-- A store with no riders and no samples. -/
def dbEmpty : DB := { riders := [], locations := [] }

/-- Fresh-install store: the three seeded riders, no samples. -/
def dbSeed : DB := { riders := seedRiders 0, locations := [] }

/-- The second seeded rider. -/
def jagdish : Rider :=
  { id := 2, name := "Jagdish Suthar", phone := "7023204168",
    email := "jks@gmail.com", status := "active", created_at := 0, updated_at := 0 }

def locA : Location :=
  { id := 1, rider_id := some 2, latitude := some (.num 27),
    longitude := some (.num 76), accuracy := some .null, speed := some .null,
    heading := some .null, timestamp := 5000 }

def locB : Location :=
  { id := 2, rider_id := some 2, latitude := some (.num 27),
    longitude := some (.num 76), accuracy := some .null, speed := some .null,
    heading := some .null, timestamp := 2000 }

def locC : Location :=
  { id := 3, rider_id := some 1, latitude := some (.num 27),
    longitude := some (.num 76), accuracy := some .null, speed := some .null,
    heading := some .null, timestamp := 3000 }

/-- Seeded store with three samples (two for rider 2, one for rider 1). -/
def dbThree : DB := { riders := seedRiders 0, locations := [locA, locB, locC] }

/-- A well-formed request body for rider 2. -/
def goodBody : LocBody :=
  { riderId := some (.num 2), latitude := some (.num 27),
    longitude := some (.num 76), accuracy := none, speed := none, heading := none }

/-- All three required fields present, but latitude is the falsy number 0. -/
def zeroLatBody : LocBody :=
  { riderId := some (.num 1), latitude := some (.num 0),
    longitude := some (.num 76), accuracy := none, speed := none, heading := none }

/-- Body with `longitude` missing entirely. -/
def noLonBody : LocBody :=
  { riderId := some (.num 2), latitude := some (.num 27), longitude := none,
    accuracy := none, speed := none, heading := none }

/-- Insert one sample with timestamp 0 into the empty store. -/
def pruneDemo1 : DB × Int :=
  insertLocation (some (.num 1)) (some (.num 27)) (some (.num 76))
    (some .null) (some .null) (some .null) 0 dbEmpty

/-- Prune just after the 30-day horizon has passed that sample. -/
def pruneDemo2 : DB × Nat × Bool := deleteOldLocations 2592000001 pruneDemo1.1

/-- Insert a second sample after the prune. -/
def pruneDemo3 : DB × Int :=
  insertLocation (some (.num 1)) (some (.num 27)) (some (.num 76))
    (some .null) (some .null) (some .null) 2592000002 pruneDemo2.1

/-! ## Claims -/

/-- Claim C1, counterexample: the first insert is assigned id 1, pruning
removes that sample, and the next insert is assigned id 1 again — an id is
reassigned to a later sample after pruning, refuting "never reused, even
after pruning". -/
theorem insertLocation_id_reuse_after_prune :
    pruneDemo1.2 = 1 ∧ pruneDemo2.2.1 = 1 ∧ pruneDemo3.2 = 1 := by decide

/-- Claim C1, amended: the id assigned by `insertLocation` is strictly
greater than every id currently in the store, so ids assigned by successive
inserts with no intervening pruning are strictly increasing and distinct;
pruning can remove the maximum id and allow reuse. -/
theorem insertLocation_id_fresh (riderId lat lon acc speed heading : Option JVal)
    (timestamp : Int) (db : DB) :
    (∀ l ∈ db.locations,
      l.id < (insertLocation riderId lat lon acc speed heading timestamp db).2) ∧
    ∀ (r2 la2 lo2 a2 s2 h2 : Option JVal) (t2 : Int),
      (insertLocation riderId lat lon acc speed heading timestamp db).2 <
        (insertLocation r2 la2 lo2 a2 s2 h2 t2
          (insertLocation riderId lat lon acc speed heading timestamp db).1).2 := by
  constructor
  · intro l hl
    exact nextLocationId_gt db.locations l hl
  · intro r2 la2 lo2 a2 s2 h2 t2
    have hmem : (⟨nextLocationId db.locations, parseIntVal riderId, lat, lon,
        acc, speed, heading, timestamp⟩ : Location) ∈
        (insertLocation riderId lat lon acc speed heading timestamp db).1.locations :=
      List.mem_append_right _ (List.mem_singleton.mpr rfl)
    exact nextLocationId_gt _ _ hmem

/-- Claim C1, witness: a stored sample's id is below the next assigned id. -/
theorem insertLocation_id_fresh_witness :
    locA.id < (insertLocation (some (.num 1)) (some (.num 27)) (some (.num 76))
      (some .null) (some .null) (some .null) 6000 dbThree).2 :=
  (insertLocation_id_fresh (some (.num 1)) (some (.num 27)) (some (.num 76))
    (some .null) (some .null) (some .null) 6000 dbThree).1 locA (by decide)

/-- Claim C2, counterexample: a request with all three required fields
present but latitude 0 is still rejected with 400, refuting "400 exactly
when one of the required fields is missing". -/
theorem postLocations_400_without_missing_field :
    zeroLatBody.riderId ≠ none ∧ zeroLatBody.latitude ≠ none ∧
    zeroLatBody.longitude ≠ none ∧
    (postLocations dbSeed 5 zeroLatBody).status = 400 ∧
    (postLocations dbSeed 5 zeroLatBody).db = dbSeed ∧
    (postLocations dbSeed 5 zeroLatBody).broadcasts = [] := by decide

/-- Claim C2, amended: `POST /api/locations` answers 400 exactly when one of
`riderId`, `latitude`, `longitude` is missing or falsy (0, empty string,
null, false, NaN); on 400 the store is untouched and nothing is broadcast;
otherwise exactly one sample is appended, the response carries its id, and
exactly one broadcast is emitted. -/
theorem postLocations_spec (db : DB) (now : Int) (b : LocBody) :
    ((postLocations db now b).status = 400 ∨ (postLocations db now b).status = 200) ∧
    ((postLocations db now b).status = 400 ↔
      ¬(truthy b.riderId = true ∧ truthy b.latitude = true ∧ truthy b.longitude = true)) ∧
    ((postLocations db now b).status = 400 →
      (postLocations db now b).db = db ∧ (postLocations db now b).broadcasts = []) ∧
    ((postLocations db now b).status = 200 →
      ∃ l, (postLocations db now b).db.locations = db.locations ++ [l] ∧
        (postLocations db now b).db.riders = db.riders ∧
        (postLocations db now b).respId = some l.id ∧
        (postLocations db now b).broadcasts.length = 1) := by
  unfold postLocations
  by_cases hg : (truthy b.riderId && truthy b.latitude && truthy b.longitude) = true
  · rw [if_neg (by simp [hg])]
    have hprops := hg
    simp only [Bool.and_eq_true] at hprops
    refine ⟨Or.inr rfl, ?_, ?_, ?_⟩
    · simp [hprops.1.1, hprops.1.2, hprops.2]
    · intro h400; simp at h400
    · intro _
      exact ⟨_, rfl, rfl, rfl, rfl⟩
  · have hgf : (truthy b.riderId && truthy b.latitude && truthy b.longitude) = false := by
      cases h : (truthy b.riderId && truthy b.latitude && truthy b.longitude)
      · rfl
      · exact absurd h hg
    rw [if_pos (show (!(truthy b.riderId && truthy b.latitude && truthy b.longitude)) = true
      by rw [hgf]; rfl)]
    refine ⟨Or.inl rfl, ?_, fun _ => ⟨rfl, rfl⟩, ?_⟩
    · constructor
      · intro _ hcontra
        rw [hcontra.1, hcontra.2.1, hcontra.2.2] at hgf
        exact Bool.noConfusion hgf
      · intro _; rfl
    · intro h200; simp at h200

/-- Claim C2, witness: a well-formed request appends one sample, answers
with its id, and emits one broadcast. -/
theorem postLocations_spec_witness :
    ∃ l, (postLocations dbSeed 5 goodBody).db.locations = dbSeed.locations ++ [l] ∧
      (postLocations dbSeed 5 goodBody).db.riders = dbSeed.riders ∧
      (postLocations dbSeed 5 goodBody).respId = some l.id ∧
      (postLocations dbSeed 5 goodBody).broadcasts.length = 1 :=
  (postLocations_spec dbSeed 5 goodBody).2.2.2 (by decide)

/-- Claim C3: pruning removes exactly the samples with timestamp older than
now minus the 30-day horizon, leaves the others (and the riders) unchanged,
reports the removed count, persists exactly when that count is positive,
and a second run at the same cutoff removes zero and does not persist. -/
theorem deleteOldLocations_spec (now : Int) (db : DB) :
    (deleteOldLocations now db).1.locations =
      db.locations.filter (fun l => decide (pruneCutoff now ≤ l.timestamp)) ∧
    (deleteOldLocations now db).1.riders = db.riders ∧
    (deleteOldLocations now db).2.1 =
      (db.locations.filter (fun l => decide (l.timestamp < pruneCutoff now))).length ∧
    ((deleteOldLocations now db).2.2 = true ↔ 0 < (deleteOldLocations now db).2.1) ∧
    deleteOldLocations now (deleteOldLocations now db).1 =
      ((deleteOldLocations now db).1, 0, false) := by
  refine ⟨rfl, rfl, ?_, ?_, ?_⟩
  · show db.locations.length -
        (db.locations.filter (fun l => decide (pruneCutoff now ≤ l.timestamp))).length = _
    have hsplit := length_filter_split
      (fun l => decide (pruneCutoff now ≤ l.timestamp)) db.locations
    have hco : db.locations.filter
        (fun l => !(decide (pruneCutoff now ≤ l.timestamp))) =
        db.locations.filter (fun l => decide (l.timestamp < pruneCutoff now)) := by
      apply List.filter_congr
      intro l _
      by_cases h : pruneCutoff now ≤ l.timestamp
      · simp [h, not_lt.mpr h]
      · simp [h, Int.lt_of_not_ge h]
    rw [hco] at hsplit
    omega
  · exact decide_eq_true_iff
  · simp [deleteOldLocations, filter_self_eq]

lemma getAllLatestLocations_mem {db : DB} {e : EnrichedLocation}
    (he : e ∈ getAllLatestLocations db) :
    ∃ r ∈ db.riders, r.status = "active" ∧ e.name = r.name ∧ e.phone = r.phone ∧
      e.status = r.status ∧ e.loc ∈ db.locations ∧ e.loc.rider_id = some r.id ∧
      ∀ l ∈ db.locations, l.rider_id = some r.id → l.timestamp ≤ e.loc.timestamp := by
  unfold getAllLatestLocations at he
  rcases List.mem_filterMap.mp he with ⟨r, hr, hfr⟩
  rcases Option.map_eq_some'.mp hfr with ⟨l0, hhead, henrich⟩
  have hrmem := List.mem_filter.mp hr
  have hract : r.status = "active" := by simpa using hrmem.2
  rcases sortDesc_head_max hhead with ⟨hl0mem, hmax⟩
  have hl0 := List.mem_filter.mp hl0mem
  have hl0rid : l0.rider_id = some r.id := jsIntEq_some_right.mp hl0.2
  refine ⟨r, hrmem.1, hract, ?_, ?_, ?_, ?_, ?_, ?_⟩
  · rw [← henrich]
  · rw [← henrich]
  · rw [← henrich]
  · rw [← henrich]; exact hl0.1
  · rw [← henrich]; exact hl0rid
  · intro l hl hlrid
    have hlf : l ∈ db.locations.filter (fun x => jsIntEq x.rider_id (some r.id)) :=
      List.mem_filter.mpr ⟨hl, jsIntEq_some_right.mpr hlrid⟩
    rw [← henrich]
    exact hmax l hlf

/-- Claim C4: the latest-locations view contains, for each active rider with
at least one sample, an entry built from a stored sample of that rider with
maximal timestamp, enriched with the rider's name, phone and status; it has
no entry for rider ids with no active rider and none for rider ids with no
samples. -/
theorem getAllLatestLocations_spec (db : DB) :
    (∀ e ∈ getAllLatestLocations db,
      ∃ r ∈ db.riders, r.status = "active" ∧ e.name = r.name ∧ e.phone = r.phone ∧
        e.status = r.status ∧ e.loc ∈ db.locations ∧ e.loc.rider_id = some r.id ∧
        ∀ l ∈ db.locations, l.rider_id = some r.id → l.timestamp ≤ e.loc.timestamp) ∧
    (∀ r ∈ db.riders, r.status = "active" →
      ∀ l0 ∈ db.locations, l0.rider_id = some r.id →
      ∃ e ∈ getAllLatestLocations db, e.name = r.name ∧ e.phone = r.phone ∧
        e.status = r.status ∧ e.loc.rider_id = some r.id) ∧
    (∀ i : Int, (∀ r ∈ db.riders, r.id = i → r.status ≠ "active") →
      ∀ e ∈ getAllLatestLocations db, e.loc.rider_id ≠ some i) ∧
    (∀ i : Int, (∀ l ∈ db.locations, l.rider_id ≠ some i) →
      ∀ e ∈ getAllLatestLocations db, e.loc.rider_id ≠ some i) := by
  refine ⟨fun e he => getAllLatestLocations_mem he, ?_, ?_, ?_⟩
  · intro r hrmem hract l0 hl0mem hl0rid
    have hrf : r ∈ db.riders.filter (fun x => x.status == "active") :=
      List.mem_filter.mpr ⟨hrmem, by simpa using hract⟩
    have hl0f : l0 ∈ db.locations.filter (fun x => jsIntEq x.rider_id (some r.id)) :=
      List.mem_filter.mpr ⟨hl0mem, jsIntEq_some_right.mpr hl0rid⟩
    have hne : db.locations.filter (fun x => jsIntEq x.rider_id (some r.id)) ≠ [] :=
      List.ne_nil_of_mem hl0f
    rcases sortDesc_nonempty hne with ⟨x, hx⟩
    refine ⟨{ loc := x, name := r.name, phone := r.phone, status := r.status }, ?_,
      rfl, rfl, rfl, ?_⟩
    · unfold getAllLatestLocations
      exact List.mem_filterMap.mpr ⟨r, hrf, by rw [hx]; rfl⟩
    · have hxmem := (sortDesc_head_max hx).1
      exact jsIntEq_some_right.mp (List.mem_filter.mp hxmem).2
  · intro i hno e he hrid
    rcases getAllLatestLocations_mem he with ⟨r, hrmem, hract, _, _, _, _, herid, _⟩
    have : r.id = i := by
      have := herid.symm.trans hrid
      injection this
    exact hno r hrmem this hract
  · intro i hno e he hrid
    rcases getAllLatestLocations_mem he with ⟨r, _, _, _, _, _, hlmem, herid, _⟩
    exact hno e.loc hlmem (herid.trans (by rw [show r.id = i from by
      injection herid.symm.trans hrid]))

/-- Claim C4, witness: rider 2 (active, with samples) has an entry carrying
its name, phone and status. -/
theorem getAllLatestLocations_spec_witness :
    ∃ e ∈ getAllLatestLocations dbThree, e.name = jagdish.name ∧
      e.phone = jagdish.phone ∧ e.status = jagdish.status ∧
      e.loc.rider_id = some jagdish.id :=
  (getAllLatestLocations_spec dbThree).2.1 jagdish (by decide) (by decide)
    locA (by decide) (by decide)

/-- Claim C5: the history query returns a permutation of exactly the stored
samples whose rider id matches the parsed rider id and whose timestamp lies
inside the inclusive window (bounds arrive in epoch seconds and are scaled
to milliseconds), sorted ascending by timestamp; an empty window yields the
empty sequence. -/
theorem getLocationHistory_spec (riderId : Option JVal) (t0 t1 : Int) (db : DB) :
    (getLocationHistory riderId t0 t1 db).Perm
      (db.locations.filter (fun l =>
        jsIntEq l.rider_id (parseIntVal riderId)
        && decide (t0 * 1000 ≤ l.timestamp) && decide (l.timestamp ≤ t1 * 1000))) ∧
    List.Sorted tsLe (getLocationHistory riderId t0 t1 db) ∧
    (∀ l, l ∈ getLocationHistory riderId t0 t1 db ↔
      l ∈ db.locations ∧ jsIntEq l.rider_id (parseIntVal riderId) = true ∧
        t0 * 1000 ≤ l.timestamp ∧ l.timestamp ≤ t1 * 1000) ∧
    (t1 < t0 → getLocationHistory riderId t0 t1 db = []) := by
  refine ⟨List.perm_insertionSort _ _, List.sorted_insertionSort _ _, ?_, ?_⟩
  · intro l
    rw [show getLocationHistory riderId t0 t1 db = List.insertionSort tsLe
        (db.locations.filter (fun l =>
          jsIntEq l.rider_id (parseIntVal riderId)
          && decide (t0 * 1000 ≤ l.timestamp)
          && decide (l.timestamp ≤ t1 * 1000))) from rfl,
      (List.perm_insertionSort _ _).mem_iff, List.mem_filter]
    simp only [Bool.and_eq_true, decide_eq_true_eq]
    tauto
  · intro hlt
    have hfil : db.locations.filter (fun l =>
        jsIntEq l.rider_id (parseIntVal riderId)
        && decide (t0 * 1000 ≤ l.timestamp)
        && decide (l.timestamp ≤ t1 * 1000)) = [] := by
      rw [List.filter_eq_nil_iff]
      intro l _
      simp only [Bool.and_eq_true, decide_eq_true_eq, not_and]
      intro h1 h2
      exfalso
      omega
    unfold getLocationHistory
    rw [hfil]
    rfl

/-- Claim C5, witness: an inverted window yields the empty sequence. -/
theorem getLocationHistory_spec_witness :
    getLocationHistory (some (.str "2")) 6 3 dbThree = [] :=
  (getLocationHistory_spec (some (.str "2")) 6 3 dbThree).2.2.2 (by decide)

/-- Claim C6, counterexample: a one-shot HTTP submission for rider 2 (whose
name the store knows) broadcasts an event with no `riderName` field,
refuting "the broadcast is enriched with the rider's display name whether it
arrives via the persistent channel or via the one-shot HTTP request". -/
theorem postLocations_broadcast_no_riderName :
    (getRiderById dbSeed (some (.num 2))).map Rider.name = some "Jagdish Suthar" ∧
    (postLocations dbSeed 5 goodBody).status = 200 ∧
    (postLocations dbSeed 5 goodBody).broadcasts.map
      LocationUpdateEvent.riderName = [none] := by decide

/-- Claim C6, amended: only the streaming-path broadcast is enriched: when
the rider is found, its event carries `riderName` = the rider's name (and
echoes the payload fields with the server timestamp); the one-shot HTTP
path's broadcast never carries a `riderName`. -/
theorem locationBroadcast_riderName_spec (db : DB) (now : Int) (d : LocBody) :
    (∀ r, getRiderById db d.riderId = some r →
      (socketLocationUpdate db now d).2.map LocationUpdateEvent.riderName =
        [some r.name]) ∧
    (∀ e ∈ (socketLocationUpdate db now d).2,
      e.riderId = d.riderId ∧ e.latitude = d.latitude ∧
      e.longitude = d.longitude ∧ e.timestamp = now) ∧
    (∀ e ∈ (postLocations db now d).broadcasts, e.riderName = none) := by
  refine ⟨?_, ?_, ?_⟩
  · intro r hr
    show [(getRiderById db d.riderId).map Rider.name] = [some r.name]
    rw [hr]
    rfl
  · intro e he
    have he2 := List.mem_singleton.mp he
    subst he2
    exact ⟨rfl, rfl, rfl, rfl⟩
  · intro e he
    unfold postLocations at he
    split at he
    · cases he
    · have he2 := List.mem_singleton.mp he
      subst he2
      rfl

/-- Claim C6, witness: the streaming path broadcasts rider 2's name. -/
theorem locationBroadcast_riderName_witness :
    (socketLocationUpdate dbSeed 5 goodBody).2.map LocationUpdateEvent.riderName =
      [some jagdish.name] :=
  (locationBroadcast_riderName_spec dbSeed 5 goodBody).1 jagdish (by decide)

/-- Claim C7, counterexample: in the initial seeded state (reachable by the
empty event sequence) riders 1 and 2 are `active` with no presence entry,
refuting "absence of an entry implies the rider's persisted status is
inactive". -/
theorem presenceStatusClaim_fails_at_init :
    Reachable 0 (initialState 0) ∧ ¬ presenceStatusClaim (initialState 0) :=
  ⟨Reachable.init, by decide⟩

/-- Claim C7, amended: only the forward direction holds: in every state
reachable by connect / disconnect / abrupt-loss events, a presence entry
for a rider id implies the first stored rider with that id has status
`active`; the converse fails already in the seeded initial state. -/
theorem presence_entry_implies_active (t0 : Int) (s : ServerState)
    (h : Reachable t0 s) :
    ∀ rid e, (rid, e) ∈ s.presence → ∀ r, findRider s.db.riders rid = some r →
      r.status = "active" := by
  induction h with
  | init => intro rid e he; cases he
  | step s0 ev hr ih =>
    cases ev with
    | riderConnect rid0 name sock now =>
      intro rid e he r hfind
      simp only [stepEv] at he hfind
      by_cases h0 : rid = rid0
      · subst h0
        exact findRider_update_self "active" rid now s0.db r hfind
      · have hmem := (mem_presenceSet he).resolve_left h0
        rw [findRider_update_other "active" rid0 rid now s0.db h0] at hfind
        exact ih rid e hmem r hfind
    | riderDisconnect rid0 now =>
      intro rid e he r hfind
      cases hfq : s0.presence.find? (fun p => p.1 == rid0) with
      | none =>
        simp only [stepEv, hfq] at he hfind
        exact ih rid e he r hfind
      | some p =>
        simp only [stepEv, hfq] at he hfind
        rcases mem_presenceDelete he with ⟨hmem, hne⟩
        rw [findRider_update_other "inactive" rid0 rid now s0.db hne] at hfind
        exact ih rid e hmem r hfind
    | abruptDisconnect sock now =>
      intro rid e he r hfind
      cases hfq : s0.presence.find? (fun p => p.2.socketId == sock) with
      | none =>
        simp only [stepEv, hfq] at he hfind
        exact ih rid e he r hfind
      | some p =>
        simp only [stepEv, hfq] at he hfind
        rcases mem_presenceDelete he with ⟨hmem, hne⟩
        rw [findRider_update_other "inactive" p.1 rid now s0.db hne] at hfind
        exact ih rid e hmem r hfind

/-- State after rider 2 connects to the fresh-install server. -/
def connectedState : ServerState :=
  (stepEv (initialState 0) (.riderConnect 2 "Jagdish Suthar" 7 5)).1

/-- Claim C7, witness: after rider 2 connects, its presence entry exists and
its persisted status is `active`. -/
theorem presence_entry_implies_active_witness :
    (findRider connectedState.db.riders 2).map Rider.status = some "active" := by
  have happ := presence_entry_implies_active 0 connectedState
    (Reachable.step (initialState 0) (.riderConnect 2 "Jagdish Suthar" 7 5)
      Reachable.init)
    2 { socketId := 7, name := "Jagdish Suthar", connectedAt := 5 } (by decide)
  cases hf : findRider connectedState.db.riders 2 with
  | none => exact absurd hf (by decide)
  | some r =>
    simpa using happ r hf

/-- Claim C8, counterexample: a streaming location-update with `longitude`
missing is still inserted into the store and still broadcast, refuting "no
location sample is inserted and no enriched broadcast is emitted". -/
theorem socket_update_missing_field_processed :
    noLonBody.longitude = none ∧
    (socketLocationUpdate dbSeed 5 noLonBody).1.locations.length =
      dbSeed.locations.length + 1 ∧
    (socketLocationUpdate dbSeed 5 noLonBody).2.length = 1 := by decide

/-- Claim C8, amended: the streaming path performs no validation at all:
every location-update event, whatever fields are missing, appends exactly
one sample (with the server timestamp) and emits exactly one broadcast. -/
theorem socketLocationUpdate_no_validation (db : DB) (now : Int) (d : LocBody) :
    (∃ l, (socketLocationUpdate db now d).1.locations = db.locations ++ [l] ∧
      l.timestamp = now) ∧
    (socketLocationUpdate db now d).1.riders = db.riders ∧
    (socketLocationUpdate db now d).2.length = 1 := by
  exact ⟨⟨_, rfl, rfl⟩, rfl, rfl⟩

/-- Claim C9: when all three required fields are present but at least one of
them is falsy (0, empty string, null, false, NaN), `POST /api/locations`
answers 400, inserts nothing, and broadcasts nothing. -/
theorem postLocations_falsy_rejected (db : DB) (now : Int) (b : LocBody)
    (hr : b.riderId ≠ none) (hla : b.latitude ≠ none) (hlo : b.longitude ≠ none)
    (hfalsy : truthy b.riderId = false ∨ truthy b.latitude = false ∨
      truthy b.longitude = false) :
    (postLocations db now b).status = 400 ∧ (postLocations db now b).db = db ∧
    (postLocations db now b).broadcasts = [] := by
  have hguard : (truthy b.riderId && truthy b.latitude && truthy b.longitude)
      = false := by
    rcases hfalsy with h | h | h <;> simp [h]
  unfold postLocations
  rw [hguard]
  exact ⟨rfl, rfl, rfl⟩

/-- Claim C9, witness: latitude 0 with every field present is rejected with
400 and neither mutates the store nor broadcasts. -/
theorem postLocations_falsy_rejected_witness :
    (postLocations dbSeed 7 zeroLatBody).status = 400 ∧
    (postLocations dbSeed 7 zeroLatBody).db = dbSeed ∧
    (postLocations dbSeed 7 zeroLatBody).broadcasts = [] :=
  postLocations_falsy_rejected dbSeed 7 zeroLatBody (by decide) (by decide)
    (by decide) (by decide)

/-- Claim C10, counterexample: the string "+2" has no leading decimal digit,
yet rider lookup returns rider 2 (JS `parseInt` accepts a sign), refuting
"getRider applied to a string with no leading digits returns not-found". -/
theorem getRiderById_no_digit_found :
    decimalPrefixVal "+2" = none ∧
    (getRiderById dbSeed (some (.str "+2"))).map Rider.id = some 2 := by decide

/-- Claim C10, amended: rider lookup coerces with full JS `parseInt`
semantics (whitespace skipped, optional sign, hexadecimal after `0x`):
a string parsing to NaN yields not-found; under distinct rider ids, a
string parsing to a rider's id yields that rider; and on strings that begin
directly with a decimal digit and are not hex-prefixed, `parseInt` agrees
with longest-leading-decimal-digit-prefix parsing. -/
theorem getRiderById_parseInt_spec (db : DB) (s : String) :
    (jsParseInt s = none → getRiderById db (some (.str s)) = none) ∧
    (∀ r ∈ db.riders, db.riders.Pairwise (fun a b => a.id ≠ b.id) →
      jsParseInt s = some r.id → getRiderById db (some (.str s)) = some r) ∧
    (∀ c cs, s.toList = c :: cs → isDecDigit c = true →
      (∀ x rest, s.toList = '0' :: x :: rest → x ≠ 'x' ∧ x ≠ 'X') →
      jsParseInt s = decimalPrefixVal s) := by
  refine ⟨?_, ?_, ?_⟩
  · intro hn
    apply List.find?_eq_none.mpr
    intro r _
    show ¬ jsIntEq (some r.id) (parseIntVal (some (.str s))) = true
    rw [show parseIntVal (some (.str s)) = jsParseInt s from rfl, hn]
    simp [jsIntEq]
  · intro r hmem hp hsome
    unfold getRiderById
    simp only [show parseIntVal (some (.str s)) = jsParseInt s from rfl, hsome]
    exact find?_unique_id db.riders hp r hmem r.id rfl
  · exact fun c cs hs hc hhex => jsParseInt_digit_start hs hc hhex

/-- Claim C10, witness: "2abc" resolves to rider 2 by its decimal prefix. -/
theorem getRiderById_parseInt_spec_witness :
    getRiderById dbSeed (some (.str "2abc")) = some jagdish :=
  (getRiderById_parseInt_spec dbSeed "2abc").2.1 jagdish (by decide) (by decide)
    (by decide)

end RiderTracking
